import Mathlib

/-!
Verification of the `async_streams` stock-signal engine.

Prices are `f64` in the source; the embedding uses exact rationals (`ℚ`),
with the caveats noted at each definition.  The four signal structs and the
orchestrator functions are translated from `src/signals/*.rs` and
`src/main.rs`.  The file `src/signals/price_diff.rs` is declared in
`signals/mod.rs` but absent from the sources; its behaviour is modelled from
the specification and from the repository's own unit test
`test_price_difference_calculate` in `src/main.rs`.
-/

namespace AsyncStreams

/-- The smallest finite `f64` value, `f64::MIN = -(2^1024 - 2^971)`:
the initial accumulator of `MaxPrice::calculate`'s fold. -/
def f64MIN : ℚ := -(2 ^ 1024 - 2 ^ 971)

/-- The largest finite `f64` value, `f64::MAX = 2^1024 - 2^971`:
the initial accumulator of `MinPrice::calculate`'s fold. -/
def f64MAX : ℚ := 2 ^ 1024 - 2 ^ 971

/-- `struct MaxPrice;` from `src/signals/max_price.rs`. -/
structure MaxPrice where

/-- `MaxPrice::calculate` from `src/signals/max_price.rs`:
empty series gives `None`, otherwise `fold(f64::MIN, |acc, q| acc.max(*q))`. -/
def MaxPrice.calculate (_self : MaxPrice) (series : List ℚ) : Option ℚ :=
  if series.isEmpty then
    none
  else
    some (series.foldl (fun acc q => max acc q) f64MIN)

/-- `struct MinPrice;` from `src/signals/min_price.rs`. -/
structure MinPrice where

/-- `MinPrice::calculate` from `src/signals/min_price.rs`:
empty series gives `None`, otherwise `fold(f64::MAX, |acc, q| acc.min(*q))`. -/
def MinPrice.calculate (_self : MinPrice) (series : List ℚ) : Option ℚ :=
  if series.isEmpty then
    none
  else
    some (series.foldl (fun acc q => min acc q) f64MAX)

/-- Rust's `slice::windows(n)`: all contiguous sub-slices of length `n`, in
order.  For a slice shorter than `n` the iterator is empty.  (The source
calls it only with `n > 1`, so the `n = 0` panic case is irrelevant.) -/
def windows (n : Nat) (l : List ℚ) : List (List ℚ) :=
  (List.range (l.length + 1 - n)).map (fun i => (l.drop i).take n)

/-- `struct WindowedSMA(usize);` from `src/signals/windowed_sma.rs`;
the single tuple field is the window size. -/
structure WindowedSMA where
  size : Nat

/-- `WindowedSMA::new` from `src/signals/windowed_sma.rs`. -/
def WindowedSMA.new (window_size : Nat) : WindowedSMA :=
  ⟨window_size⟩

/-- `WindowedSMA::calculate` from `src/signals/windowed_sma.rs`:
if the series is non-empty and the window size exceeds 1, map each
length-`w` window to `w.iter().sum() / w.len()`; otherwise `None`. -/
def WindowedSMA.calculate (self : WindowedSMA) (series : List ℚ) : Option (List ℚ) :=
  if ¬ series.isEmpty ∧ self.size > 1 then
    some ((windows self.size series).map (fun w => w.sum / (w.length : ℚ)))
  else
    none

/-- `struct PriceDifference;`, declared via `signals/mod.rs`. -/
structure PriceDifference where

/-- Modelled from the spec: the implementation file `src/signals/price_diff.rs`
is declared in `signals/mod.rs` but missing from the sources; only its
declaration, its callers and its unit test are present.  Per spec §4.4:
absent on an empty series; otherwise a pair
`(absolute, relative) = (last - first, absolute / divisor)`.  The divisor is
`first`, except that a first element of exactly `0.0` is replaced by `1.0`:
the spec's words claim no such guard exists, but the repository's unit test
`test_price_difference_calculate` (src/main.rs) asserts
`calculate([0.0, 3.0, 5.0, 6.0, 1.0, 2.0, 1.0]) = Some((1.0, 1.0))`, which
forces a finite relative value equal to the absolute difference, so the
source code is taken as the authority for the guard. -/
def PriceDifference.calculate (_self : PriceDifference) (series : List ℚ) :
    Option (ℚ × ℚ) :=
  match series.head?, series.getLast? with
  | some first, some last =>
      let abs_diff := last - first
      let divisor := if first = 0 then 1 else first
      some (abs_diff, abs_diff / divisor)
  | _, _ => none

/-- Modelled from the spec: spec §4.4's formula for the missing
`price_diff.rs`, taken literally with no zero-guard — empty series absent,
singleton `(0.0, 0.0)`, otherwise `(last - first, (last - first) / first)`.
Kept separate so the spec's words can be compared against the unit test
(in `ℚ`, division by zero yields `0`; in `f64` it yields an infinity — under
either reading the comparison below comes out the same way). -/
def PriceDifference.calculateSpecLiteral (series : List ℚ) : Option (ℚ × ℚ) :=
  match series.head?, series.getLast? with
  | some first, some last =>
      if series.length = 1 then
        some (0, 0)
      else
        some (last - first, (last - first) / first)
  | _, _ => none

/-- The assertions of the unit test `test_price_difference_calculate`
(src/main.rs, lines 248–264), as a predicate on a candidate
`calculate` function. -/
def priceDifferenceTestAssertions (f : List ℚ → Option (ℚ × ℚ)) : Prop :=
  f [] = none ∧
  f [1] = some (0, 0) ∧
  f [1, 0] = some (-1, -1) ∧
  f [2, 3, 5, 6, 1, 2, 10] = some (8, 4) ∧
  f [0, 3, 5, 6, 1, 2, 1] = some (1, 1)

/-- The two `io::Error` kinds produced by `fetch_closing_data`
(src/main.rs, lines 87–109): `ConnectionRefused` when the Yahoo connector
cannot be constructed ("ProviderUnavailable"), `InvalidData` when the
response cannot be obtained or parsed ("InvalidResponse"). -/
inductive FetchError where
  | connectionRefused
  | invalidData
deriving DecidableEq

/-- A price observation: the fields of a Yahoo quote that
`fetch_closing_data` consumes (`timestamp` for sorting, `adjclose`). -/
structure Quote where
  timestamp : Nat
  adjclose : ℚ

/-- The possible outcomes of the provider interaction inside
`fetch_closing_data`, abstracting the network: connector construction
fails, `get_quote_history` fails, `resp.quotes()` fails, or a list of
quotes is obtained. -/
inductive ProviderResponse where
  | noProvider
  | badHistory
  | badQuotes
  | quotes (qs : List Quote)

/-- `fetch_closing_data` (src/main.rs, lines 87–109) as a function of the
provider's outcome: connector failure maps to `ConnectionRefused`, history
or parse failure to `InvalidData`; otherwise the quotes are sorted stably
by timestamp and their `adjclose` values returned (the empty case returns
an empty vector). -/
def fetch_closing_data : ProviderResponse → Except FetchError (List ℚ)
  | .noProvider => .error .connectionRefused
  | .badHistory => .error .invalidData
  | .badQuotes => .error .invalidData
  | .quotes qs =>
    if ¬ qs.isEmpty then
      .ok ((qs.mergeSort (fun k l => k.timestamp ≤ l.timestamp)).map
        (fun q => q.adjclose))
    else
      .ok []

/-- The 7-tuple assembled by `calculate_signals` (src/main.rs, lines
125–131), with the source's local variable names as field names. -/
structure Row where
  date : String
  symbol : String
  last_price : ℚ
  pct_change : ℚ
  period_min : ℚ
  period_max : ℚ
  last_sma : ℚ
deriving DecidableEq

/-- `calculate_signals` (src/main.rs, lines 111–134): each signal is
invoked on the series and an absent result replaced by `unwrap_or` with
`0.0`, `vec![]` or `(0.0, 0.0)`; `pct_change` is the relative difference
times 100, `last_price` the series' last element (default `0.0`),
`last_sma` the SMA sequence's last element (default `0.0`).  The RFC-3339
rendering of `start` is abstracted as the string itself. -/
def calculate_signals (symbol : String) (start : String) (closes : List ℚ) :
    Row :=
  let period_max := (MaxPrice.calculate ⟨⟩ closes).getD 0
  let period_min := (MinPrice.calculate ⟨⟩ closes).getD 0
  let sma := (WindowedSMA.calculate (WindowedSMA.new 3) closes).getD []
  let price_diff := (PriceDifference.calculate ⟨⟩ closes).getD (0, 0)
  let pct_change := price_diff.2 * 100
  let last_price := closes.getLast?.getD 0
  let last_sma := sma.getLast?.getD 0
  ⟨start, symbol, last_price, pct_change, period_min, period_max, last_sma⟩

/-- The per-symbol loop of `stream_signals` (src/main.rs, lines 145–155),
with the provider abstracted as an environment `env` from symbols to
provider outcomes.  Returns the data rows written (the header always
precedes them in the file) together with the error, if any, that
terminated the run: a fetch failure stops the loop at once via `?`, while
an empty series writes no row and continues. -/
def stream_signals (env : String → ProviderResponse) (start : String) :
    List String → List Row × Option FetchError
  | [] => ([], none)
  | symbol :: rest =>
    match fetch_closing_data (env symbol) with
    | .error e => ([], some e)
    | .ok closes =>
      let tail := stream_signals env start rest
      if ¬ closes.isEmpty then
        (calculate_signals symbol start closes :: tail.1, tail.2)
      else
        tail

/-- Two successive invocations of one signal's `calculate` on the same
(unmodified) series, in call order.  In the source every `calculate` takes
`&self` — an immutable borrow of a struct with no interior mutability — so
the embedding of a signal call is a pure function of the struct and the
series, and the pair records the results of the first and second call. -/
def callTwice {α : Type} (f : List ℚ → Option α) (series : List ℚ) :
    Option α × Option α :=
  let r1 := f series
  let r2 := f series
  (r1, r2)

/-! ## Helper lemmas -/

theorem windows_length (n : Nat) (l : List ℚ) :
    (windows n l).length = l.length + 1 - n := by
  simp [windows]

theorem windows_getElem? (n : Nat) (l : List ℚ) (i : Nat)
    (hi : i < l.length + 1 - n) :
    (windows n l)[i]? = some ((l.drop i).take n) := by
  simp [windows, List.getElem?_map, List.getElem?_range, hi]

theorem sma_calculate_some (w : Nat) (S : List ℚ) (hw : 1 < w) (hS : S ≠ []) :
    WindowedSMA.calculate (WindowedSMA.new w) S =
      some ((windows w S).map (fun x => x.sum / (x.length : ℚ))) := by
  simp [WindowedSMA.calculate, WindowedSMA.new, hw, hS]

theorem priceDiff_eq (S : List ℚ) (first last : ℚ) (hf : S.head? = some first)
    (hl : S.getLast? = some last) :
    PriceDifference.calculate ⟨⟩ S =
      some (last - first, (last - first) / (if first = 0 then 1 else first)) := by
  unfold PriceDifference.calculate
  rw [hf, hl]

theorem getLast?_of_ne_nil (S : List ℚ) (hS : S ≠ []) :
    ∃ last, S.getLast? = some last :=
  Option.isSome_iff_exists.mp (List.getLast?_isSome.mpr hS)

/-- The modelled `PriceDifference::calculate` satisfies every assertion of
the repository's unit test `test_price_difference_calculate`. -/
theorem priceDifference_passes_unit_test :
    priceDifferenceTestAssertions (PriceDifference.calculate ⟨⟩) := by
  refine ⟨rfl, ?_, ?_, ?_, ?_⟩ <;>
    (simp [PriceDifference.calculate]; try norm_num)

/-- The literal reading of spec §4.4 — no zero-guard — fails the
repository's unit test on the series whose first element is `0.0`. -/
theorem specLiteral_fails_unit_test :
    ¬ priceDifferenceTestAssertions PriceDifference.calculateSpecLiteral := by
  intro h
  have h5 := h.2.2.2.2
  simp [PriceDifference.calculateSpecLiteral] at h5

theorem le_foldl_max (l : List ℚ) (a : ℚ) : a ≤ l.foldl max a := by
  induction l generalizing a with
  | nil => exact le_refl a
  | cons y t ih => exact le_trans (le_max_left a y) (ih (max a y))

theorem elem_le_foldl_max (l : List ℚ) (a x : ℚ) (hx : x ∈ l) :
    x ≤ l.foldl max a := by
  induction l generalizing a with
  | nil => cases hx
  | cons y t ih =>
    rcases List.mem_cons.mp hx with h | h
    · subst h
      exact le_trans (le_max_right a x) (le_foldl_max t (max a x))
    · exact ih (max a y) h

theorem foldl_max_mem (l : List ℚ) (a : ℚ) :
    l.foldl max a = a ∨ l.foldl max a ∈ l := by
  induction l generalizing a with
  | nil => exact Or.inl rfl
  | cons y t ih =>
    rw [List.foldl_cons]
    rcases ih (max a y) with h | h
    · rcases max_choice a y with hm | hm
      · exact Or.inl (by rw [h, hm])
      · exact Or.inr (by rw [h, hm]; exact List.mem_cons_self y t)
    · exact Or.inr (List.mem_cons_of_mem y h)

theorem foldl_min_le (l : List ℚ) (a : ℚ) : l.foldl min a ≤ a := by
  induction l generalizing a with
  | nil => exact le_refl a
  | cons y t ih => exact le_trans (ih (min a y)) (min_le_left a y)

theorem foldl_min_le_elem (l : List ℚ) (a x : ℚ) (hx : x ∈ l) :
    l.foldl min a ≤ x := by
  induction l generalizing a with
  | nil => cases hx
  | cons y t ih =>
    rcases List.mem_cons.mp hx with h | h
    · subst h
      exact le_trans (foldl_min_le t (min a x)) (min_le_right a x)
    · exact ih (min a y) h

theorem foldl_min_mem (l : List ℚ) (a : ℚ) :
    l.foldl min a = a ∨ l.foldl min a ∈ l := by
  induction l generalizing a with
  | nil => exact Or.inl rfl
  | cons y t ih =>
    rw [List.foldl_cons]
    rcases ih (min a y) with h | h
    · rcases min_choice a y with hm | hm
      · exact Or.inl (by rw [h, hm])
      · exact Or.inr (by rw [h, hm]; exact List.mem_cons_self y t)
    · exact Or.inr (List.mem_cons_of_mem y h)

end AsyncStreams

namespace AsyncStreams

/-! ## Claim theorems -/

/-- C3: `MaxPrice` and `MinPrice` are absent iff the series is empty; on a
non-empty series the maximum (resp. minimum) is an element of the series
bounding every element from above (resp. below).  The hypotheses say every
element lies in the finite range of `f64`, which is true of every `f64`
value the source can be handed; they are needed because the source folds
from the sentinels `f64::MIN` / `f64::MAX`. -/
theorem maxPrice_minPrice_bounds (S : List ℚ)
    (hlo : ∀ x ∈ S, f64MIN ≤ x) (hhi : ∀ x ∈ S, x ≤ f64MAX) :
    (MaxPrice.calculate ⟨⟩ S = none ↔ S = []) ∧
    (MinPrice.calculate ⟨⟩ S = none ↔ S = []) ∧
    (S ≠ [] → ∃ m, MaxPrice.calculate ⟨⟩ S = some m ∧ m ∈ S ∧
      ∀ x ∈ S, x ≤ m) ∧
    (S ≠ [] → ∃ m, MinPrice.calculate ⟨⟩ S = some m ∧ m ∈ S ∧
      ∀ x ∈ S, m ≤ x) := by
  refine ⟨?_, ?_, ?_, ?_⟩
  · simp [MaxPrice.calculate, List.isEmpty_iff]
  · simp [MinPrice.calculate, List.isEmpty_iff]
  · intro hS
    refine ⟨S.foldl max f64MIN, ?_, ?_, ?_⟩
    · simp [MaxPrice.calculate, List.isEmpty_iff, hS]
    · rcases foldl_max_mem S f64MIN with h | h
      · obtain ⟨x, hx⟩ := List.exists_mem_of_ne_nil S hS
        have h1 : x ≤ f64MIN := h ▸ elem_le_foldl_max S f64MIN x hx
        have h2 : x = f64MIN := le_antisymm h1 (hlo x hx)
        rw [h, ← h2]
        exact hx
      · exact h
    · exact fun x hx => elem_le_foldl_max S f64MIN x hx
  · intro hS
    refine ⟨S.foldl min f64MAX, ?_, ?_, ?_⟩
    · simp [MinPrice.calculate, List.isEmpty_iff, hS]
    · rcases foldl_min_mem S f64MAX with h | h
      · obtain ⟨x, hx⟩ := List.exists_mem_of_ne_nil S hS
        have h1 : f64MAX ≤ x := h ▸ foldl_min_le_elem S f64MAX x hx
        have h2 : x = f64MAX := le_antisymm (hhi x hx) h1
        rw [h, ← h2]
        exact hx
      · exact h
    · exact fun x hx => foldl_min_le_elem S f64MAX x hx

/-- Witness for C3 on the test series `[0, 3, 5, 6, 1, 2, 1]`. -/
theorem maxPrice_minPrice_bounds_witness :
    (MaxPrice.calculate ⟨⟩ ([0, 3, 5, 6, 1, 2, 1] : List ℚ) = none ↔
      ([0, 3, 5, 6, 1, 2, 1] : List ℚ) = []) ∧
    (MinPrice.calculate ⟨⟩ ([0, 3, 5, 6, 1, 2, 1] : List ℚ) = none ↔
      ([0, 3, 5, 6, 1, 2, 1] : List ℚ) = []) ∧
    (([0, 3, 5, 6, 1, 2, 1] : List ℚ) ≠ [] →
      ∃ m, MaxPrice.calculate ⟨⟩ ([0, 3, 5, 6, 1, 2, 1] : List ℚ) = some m ∧
        m ∈ ([0, 3, 5, 6, 1, 2, 1] : List ℚ) ∧
        ∀ x ∈ ([0, 3, 5, 6, 1, 2, 1] : List ℚ), x ≤ m) ∧
    (([0, 3, 5, 6, 1, 2, 1] : List ℚ) ≠ [] →
      ∃ m, MinPrice.calculate ⟨⟩ ([0, 3, 5, 6, 1, 2, 1] : List ℚ) = some m ∧
        m ∈ ([0, 3, 5, 6, 1, 2, 1] : List ℚ) ∧
        ∀ x ∈ ([0, 3, 5, 6, 1, 2, 1] : List ℚ), m ≤ x) :=
  maxPrice_minPrice_bounds [0, 3, 5, 6, 1, 2, 1]
    (by intro x hx; fin_cases hx <;> norm_num [f64MIN])
    (by intro x hx; fin_cases hx <;> norm_num [f64MAX])

/-- C2: `WindowedSMA(w).calculate(S)` is absent iff `S` is empty or `w ≤ 1`;
when `w > 1` and `S` is non-empty it is present with length
`max(0, |S| − w + 1)` — in particular, a non-empty series shorter than the
window yields a present but empty sequence. -/
theorem windowedSMA_absence_and_length (w : Nat) (S : List ℚ) :
    (WindowedSMA.calculate (WindowedSMA.new w) S = none ↔ S = [] ∨ w ≤ 1) ∧
    (1 < w → S ≠ [] →
      ∃ out, WindowedSMA.calculate (WindowedSMA.new w) S = some out ∧
        (out.length : ℤ) = max 0 ((S.length : ℤ) - w + 1)) ∧
    (1 < w → S ≠ [] → S.length < w →
      WindowedSMA.calculate (WindowedSMA.new w) S = some []) := by
  refine ⟨?_, ?_, ?_⟩
  · constructor
    · intro h
      by_contra hcon
      push_neg at hcon
      rw [sma_calculate_some w S (by omega) hcon.1] at h
      exact Option.noConfusion h
    · intro h
      rcases h with h | h
      · simp [WindowedSMA.calculate, WindowedSMA.new, h]
      · simp [WindowedSMA.calculate, WindowedSMA.new, h, Nat.not_lt.mpr h]
  · intro hw hS
    refine ⟨_, sma_calculate_some w S hw hS, ?_⟩
    rw [List.length_map, windows_length]
    omega
  · intro hw hS hshort
    rw [sma_calculate_some w S hw hS]
    have hz : S.length + 1 - w = 0 := by omega
    simp [windows, hz]

/-- C5: for `w > 1` and `|S| ≥ w`, the result has one value per contiguous
sub-window of length `w`, in input order, each equal to the arithmetic mean
of that sub-window; on `[2.0, 4.5, 5.3, 6.5, 4.7]` with `w = 3` the exact
means are `[59/15, 163/30, 11/2]` (whose nearest-`f64` renderings are the
decimals `3.9333333333333336`, `5.433333333333334`, `5.5` asserted by the
source's unit test). -/
theorem windowedSMA_means (w : Nat) (S : List ℚ) (hw : 1 < w)
    (hlen : w ≤ S.length) :
    (∃ out, WindowedSMA.calculate (WindowedSMA.new w) S = some out ∧
      out.length = S.length - w + 1 ∧
      ∀ i, i < out.length →
        out[i]? = some (((S.drop i).take w).sum / (w : ℚ))) ∧
    WindowedSMA.calculate (WindowedSMA.new 3) [2, 9/2, 53/10, 13/2, 47/10] =
      some [59/15, 163/30, 11/2] := by
  constructor
  · have hS : S ≠ [] := List.ne_nil_of_length_pos (by omega)
    refine ⟨_, sma_calculate_some w S hw hS, ?_, ?_⟩
    · rw [List.length_map, windows_length]
      omega
    · intro i hi
      rw [List.length_map, windows_length] at hi
      rw [List.getElem?_map, windows_getElem? w S i hi, Option.map_some']
      congr 1
      rw [List.length_take, List.length_drop, Nat.min_eq_left (by omega)]
  · simp [WindowedSMA.calculate, WindowedSMA.new, windows, List.range_succ]
    norm_num

/-- Witness for C5 at `w = 3` on the five-element test series. -/
theorem windowedSMA_means_witness :
    WindowedSMA.calculate (WindowedSMA.new 3) [2, 9/2, 53/10, 13/2, 47/10] =
      some [59/15, 163/30, 11/2] :=
  (windowedSMA_means 3 [2, 9/2, 53/10, 13/2, 47/10] (by norm_num)
    (by norm_num)).2

/-- Witness for C2 at `w = 10` on the five-element test series: present
with the empty sequence, of length `max 0 (5 − 10 + 1) = 0`. -/
theorem windowedSMA_absence_and_length_witness :
    ∃ out, WindowedSMA.calculate (WindowedSMA.new 10)
        [2, 9/2, 53/10, 13/2, 47/10] = some out ∧
      (out.length : ℤ) =
        max 0 ((([2, 9/2, 53/10, 13/2, 47/10] : List ℚ).length : ℤ) - 10 + 1) :=
  (windowedSMA_absence_and_length 10 [2, 9/2, 53/10, 13/2, 47/10]).2.1
    (by norm_num) (by simp)

/-- C4: `PriceDifference` is absent iff the series is empty; a singleton
yields `(0.0, 0.0)`; for `|S| ≥ 2` the absolute difference is
`last(S) − first(S)`; and the result depends only on the first and last
elements, never on the intermediate ones. -/
theorem priceDifference_contract :
    (∀ S : List ℚ, PriceDifference.calculate ⟨⟩ S = none ↔ S = []) ∧
    (∀ a : ℚ, PriceDifference.calculate ⟨⟩ [a] = some (0, 0)) ∧
    (∀ (S : List ℚ) (first last : ℚ), 2 ≤ S.length →
      S.head? = some first → S.getLast? = some last →
      ∃ rel, PriceDifference.calculate ⟨⟩ S = some (last - first, rel)) ∧
    (∀ (first : ℚ) (mids1 mids2 : List ℚ) (last : ℚ),
      PriceDifference.calculate ⟨⟩ (first :: mids1 ++ [last]) =
        PriceDifference.calculate ⟨⟩ (first :: mids2 ++ [last])) := by
  refine ⟨?_, ?_, ?_, ?_⟩
  · intro S
    cases S with
    | nil => simp [PriceDifference.calculate]
    | cons a t =>
      obtain ⟨last, hl⟩ := getLast?_of_ne_nil (a :: t) (List.cons_ne_nil a t)
      rw [priceDiff_eq (a :: t) a last rfl hl]
      simp
  · intro a
    rw [priceDiff_eq [a] a a rfl rfl]
    simp
  · intro S first last _ hf hl
    exact ⟨_, priceDiff_eq S first last hf hl⟩
  · intro first mids1 mids2 last
    have h1 : (first :: mids1 ++ [last]).getLast? = some last :=
      List.getLast?_concat (first :: mids1)
    have h2 : (first :: mids2 ++ [last]).getLast? = some last :=
      List.getLast?_concat (first :: mids2)
    rw [priceDiff_eq (first :: mids1 ++ [last]) first last rfl h1,
      priceDiff_eq (first :: mids2 ++ [last]) first last rfl h2]

/-- Witness for C4: on `[2, 3, 5, 6, 1, 2, 10]`, the absolute difference
is `10 − 2`. -/
theorem priceDifference_contract_witness :
    ∃ rel, PriceDifference.calculate ⟨⟩ [2, 3, 5, 6, 1, 2, 10] =
      some (10 - 2, rel) :=
  priceDifference_contract.2.2.1 [2, 3, 5, 6, 1, 2, 10] 2 10
    (by norm_num) rfl rfl

/-- C1 (amended): for `|S| ≥ 2` the result is present with
`absolute = last − first` and `relative = absolute / divisor`, where the
divisor is `first` except that a first element of exactly `0.0` is replaced
by `1.0` — so a zero first element yields the finite value
`relative = absolute`, never an infinite or undefined one.  (The guard is
forced by the repository's unit test; see the counterexample.) -/
theorem priceDifference_guarded_relative (S : List ℚ) (first last : ℚ)
    (_h2 : 2 ≤ S.length) (hf : S.head? = some first)
    (hl : S.getLast? = some last) :
    PriceDifference.calculate ⟨⟩ S =
      some (last - first, (last - first) / (if first = 0 then 1 else first)) ∧
    (first ≠ 0 → PriceDifference.calculate ⟨⟩ S =
      some (last - first, (last - first) / first)) ∧
    (first = 0 → PriceDifference.calculate ⟨⟩ S =
      some (last - first, last - first)) := by
  refine ⟨priceDiff_eq S first last hf hl, ?_, ?_⟩
  · intro h0
    rw [priceDiff_eq S first last hf hl]
    simp [h0]
  · intro h0
    subst h0
    rw [priceDiff_eq S 0 last hf hl]
    simp

/-- Witness for C1's amended statement on the unit-test series with a zero
first element. -/
theorem priceDifference_guarded_relative_witness :
    PriceDifference.calculate ⟨⟩ [0, 3, 5, 6, 1, 2, 1] =
      some (1 - 0, 1 - 0) :=
  (priceDifference_guarded_relative [0, 3, 5, 6, 1, 2, 1] 0 1
    (by norm_num) rfl rfl).2.2 rfl

/-- C1 counterexample: on the unit test's series `[0, 3, 5, 6, 1, 2, 1]`
the program returns the finite pair `(1.0, 1.0)` (asserted by
`test_price_difference_calculate` in src/main.rs), whereas the claimed
unguarded formula `relative = (last − first) / first` divides by zero
there and cannot produce `1.0` (it yields an infinity in `f64`, `0` in the
exact embedding); the literal no-guard model fails the repository's own
unit test. -/
theorem priceDifference_no_guard_counterexample :
    PriceDifference.calculate ⟨⟩ [0, 3, 5, 6, 1, 2, 1] = some (1, 1) ∧
    PriceDifference.calculateSpecLiteral [0, 3, 5, 6, 1, 2, 1] ≠
      some (1, 1) ∧
    ¬ priceDifferenceTestAssertions PriceDifference.calculateSpecLiteral := by
  refine ⟨priceDifference_passes_unit_test.2.2.2.2, ?_,
    specLiteral_fails_unit_test⟩
  simp [PriceDifference.calculateSpecLiteral]

/-- C10: on any series of length ≥ 2 whose first element is exactly `0.0`,
`PriceDifference` returns a present pair whose relative difference is
finite and equal to the absolute difference (both being the last
element). -/
theorem priceDifference_zero_first (S : List ℚ) (h0 : S.head? = some 0)
    (h2 : 2 ≤ S.length) :
    ∃ d, PriceDifference.calculate ⟨⟩ S = some (d, d) ∧
      S.getLast? = some d := by
  have hS : S ≠ [] := List.ne_nil_of_length_pos (by omega)
  obtain ⟨last, hl⟩ := getLast?_of_ne_nil S hS
  refine ⟨last, ?_, hl⟩
  rw [priceDiff_eq S 0 last h0 hl]
  simp

/-- Witness for C10: the unit test's series `[0, 3, 5, 6, 1, 2, 1]` yields
`(1.0, 1.0)`. -/
theorem priceDifference_zero_first_witness :
    PriceDifference.calculate ⟨⟩ [0, 3, 5, 6, 1, 2, 1] = some (1, 1) := by
  obtain ⟨d, hd, hlast⟩ :=
    priceDifference_zero_first [0, 3, 5, 6, 1, 2, 1] rfl (by norm_num)
  have hd1 : d = 1 := by
    have h := hlast.symm
    simp at h
    exact h
  rw [hd1] at hd
  exact hd

/-- C6: row assembly (`calculate_signals`) substitutes `0.0`, the empty
sequence, or `(0.0, 0.0)` for absent signal results (shown by the row it
builds from an empty series, on which all four signals are absent); on a
non-empty series `last_price` is the series' last element, `pct_change`
is `PriceDifference`'s relative difference times 100, and `last_sma` is
the last element of the `WindowedSMA(3)` sequence, or `0.0` when that
sequence is empty. -/
theorem calculate_signals_row (symbol start : String) (closes : List ℚ)
    (h : closes ≠ []) :
    (∃ a r, PriceDifference.calculate ⟨⟩ closes = some (a, r) ∧
      (calculate_signals symbol start closes).pct_change = r * 100) ∧
    (calculate_signals symbol start closes).last_price = closes.getLast h ∧
    (∃ sma, WindowedSMA.calculate (WindowedSMA.new 3) closes = some sma ∧
      (calculate_signals symbol start closes).last_sma =
        sma.getLast?.getD 0 ∧
      (sma = [] → (calculate_signals symbol start closes).last_sma = 0)) ∧
    (∀ s d : String, calculate_signals s d [] =
      { date := d, symbol := s, last_price := 0, pct_change := 0,
        period_min := 0, period_max := 0, last_sma := 0 }) := by
  obtain ⟨first, hf⟩ : ∃ a, closes.head? = some a := by
    cases closes with
    | nil => exact absurd rfl h
    | cons a t => exact ⟨a, rfl⟩
  obtain ⟨last, hl⟩ := getLast?_of_ne_nil closes h
  have hpd := priceDiff_eq closes first last hf hl
  have hsma := sma_calculate_some 3 closes (by norm_num) h
  refine ⟨⟨last - first, _, hpd, ?_⟩, ?_, ⟨_, hsma, ?_, ?_⟩, ?_⟩
  · simp [calculate_signals, hpd]
  · have hgl : closes.getLast? = some (closes.getLast h) :=
      List.getLast?_eq_getLast closes h
    simp [calculate_signals, hgl]
  · simp [calculate_signals, hsma]
  · intro hnil
    simp [calculate_signals, hsma, hnil]
  · intro s d
    simp [calculate_signals, MaxPrice.calculate, MinPrice.calculate,
      WindowedSMA.calculate, PriceDifference.calculate]

/-- Witness for C6 on the unit-test series `[2, 3, 5, 6, 1, 2, 10]`. -/
theorem calculate_signals_row_witness :
    ∃ a r, PriceDifference.calculate ⟨⟩ [2, 3, 5, 6, 1, 2, 10] =
        some (a, r) ∧
      (calculate_signals "AAPL" "2020-01-01T00:00:00+00:00"
        [2, 3, 5, 6, 1, 2, 10]).pct_change = r * 100 :=
  (calculate_signals_row "AAPL" "2020-01-01T00:00:00+00:00"
    [2, 3, 5, 6, 1, 2, 10] (by simp)).1

/-- C7: a symbol whose fetched series is empty contributes no row and no
error, and processing continues with the remaining symbols; when every
symbol yields an empty series the run produces no data rows and no error
(the file then holds only the header). -/
theorem stream_signals_skip_empty (env : String → ProviderResponse)
    (start : String) (s : String) (rest symbols : List String) :
    (fetch_closing_data (env s) = .ok [] →
      stream_signals env start (s :: rest) = stream_signals env start rest) ∧
    ((∀ t ∈ symbols, fetch_closing_data (env t) = .ok []) →
      stream_signals env start symbols = ([], none)) := by
  constructor
  · intro hs
    simp [stream_signals, hs]
  · induction symbols with
    | nil => intro _; rfl
    | cons t ts ih =>
      intro hall
      have ht := hall t (List.mem_cons_self t ts)
      have ihts := ih (fun u hu => hall u (List.mem_cons_of_mem t hu))
      simp [stream_signals, ht, ihts]

/-- Witness for C7: two symbols, both fetching empty series. -/
theorem stream_signals_skip_empty_witness :
    stream_signals (fun _ => ProviderResponse.quotes []) "2020" ["AAPL", "MSFT"] =
      ([], none) :=
  (stream_signals_skip_empty (fun _ => ProviderResponse.quotes []) "2020"
    "AAPL" [] ["AAPL", "MSFT"]).2 (fun _ _ => rfl)

/-- C8: if fetching some symbol's series fails — with either failure kind —
the run terminates at once with that single failure: the rows produced are
exactly those of the successful symbols before it, no row is produced for
the failing symbol or any symbol after it (the tail `post` does not affect
the outcome), and the terminating error is the originating kind. -/
theorem stream_signals_fetch_failure (env : String → ProviderResponse)
    (start : String) (pre post : List String) (s : String) (e : FetchError)
    (hpre : ∀ t ∈ pre, ∃ cs, fetch_closing_data (env t) = .ok cs)
    (hs : fetch_closing_data (env s) = .error e) :
    stream_signals env start (pre ++ s :: post) =
      ((stream_signals env start pre).1, some e) := by
  induction pre with
  | nil =>
    simp [stream_signals, hs]
  | cons t ts ih =>
    obtain ⟨cs, hcs⟩ := hpre t (List.mem_cons_self t ts)
    have ih2 := ih (fun u hu => hpre u (List.mem_cons_of_mem t hu))
    simp only [List.cons_append, stream_signals, hcs, ih2]
    by_cases hempty : cs.isEmpty <;> simp [hempty, ih2]

/-- Witness for C8: symbol "BAD" fails with `InvalidData` after a
successful symbol and before a further symbol; only the prefix's rows
survive and the error is reported. -/
theorem stream_signals_fetch_failure_witness :
    stream_signals
        (fun sym => if sym = "BAD" then ProviderResponse.badHistory
          else ProviderResponse.quotes [⟨0, 5⟩]) "2020"
        (["AAPL"] ++ "BAD" :: ["MSFT"]) =
      ((stream_signals
        (fun sym => if sym = "BAD" then ProviderResponse.badHistory
          else ProviderResponse.quotes [⟨0, 5⟩]) "2020" ["AAPL"]).1,
        some FetchError.invalidData) :=
  stream_signals_fetch_failure
    (fun sym => if sym = "BAD" then ProviderResponse.badHistory
      else ProviderResponse.quotes [⟨0, 5⟩]) "2020" ["AAPL"] ["MSFT"] "BAD"
    FetchError.invalidData
    (by intro t ht; simp at ht; subst ht; exact ⟨[5], by simp [fetch_closing_data]⟩)
    (by simp [fetch_closing_data])

/-- C9: no signal mutates hidden state across calls — each `calculate`
takes `&self` on a struct without interior mutability, so two successive
calls on the same unmodified series return identical results, for all four
signal implementations. -/
theorem signals_idempotent (series : List ℚ) (mp : MaxPrice) (np : MinPrice)
    (pd : PriceDifference) (ws : WindowedSMA) :
    (callTwice (mp.calculate) series).1 = (callTwice (mp.calculate) series).2 ∧
    (callTwice (np.calculate) series).1 = (callTwice (np.calculate) series).2 ∧
    (callTwice (pd.calculate) series).1 = (callTwice (pd.calculate) series).2 ∧
    (callTwice (ws.calculate) series).1 = (callTwice (ws.calculate) series).2 :=
  ⟨rfl, rfl, rfl, rfl⟩

end AsyncStreams
